import Mathlib

/-!
Verification of the libretro-gambatte output pipeline
(`src/libgambatte/libretro/libretro.cpp` and
`src/libgambatte/src/mem/fake_rtc.cpp`) against its natural-language
specification.  The C code is shallowly embedded: machine integers are
modelled as `Nat`/`Int` with explicit `% 2^w` where overflow matters,
buffers as lists, and the stateful tick loop as explicit state passing.
-/

namespace Gambatte

/-! ## Constants (libretro.cpp lines 104-307, SF2000 single-Game-Boy build) -/

/-- `GB_SCREEN_WIDTH` (libretro.cpp line 111). -/
def GB_SCREEN_WIDTH : Nat := 160

/-- `NUM_GAMEBOYS` (libretro.cpp line 106, non-dual build). -/
def NUM_GAMEBOYS : Nat := 1

/-- `VIDEO_WIDTH` (libretro.cpp line 112). -/
def VIDEO_WIDTH : Nat := GB_SCREEN_WIDTH * NUM_GAMEBOYS

/-- `VIDEO_HEIGHT` (libretro.cpp line 113). -/
def VIDEO_HEIGHT : Nat := 144

/-- `VIDEO_PITCH` (libretro.cpp line 117), in pixels. -/
def VIDEO_PITCH : Nat := 256 * NUM_GAMEBOYS

/-- `sizeof(gambatte::video_pixel_t)` for the RGB565 build (uint16). -/
def videoPixelBytes : Nat := 2

/-- `SOUND_SAMPLES_PER_FRAME` (libretro.cpp line 278): native samples per
emulated frame. -/
def SOUND_SAMPLES_PER_FRAME : Nat := 35112

/-- `SOUND_SAMPLES_PER_RUN` (libretro.cpp line 280): target sample count
per `GB::runFor` invocation. -/
def SOUND_SAMPLES_PER_RUN : Nat := 2064

/-- Initial / reset value of `audio_batch_frames_max`
(libretro.cpp lines 322, 340, 351). -/
def audio_batch_frames_max_init : Nat := 1 <<< 16

/-! ## Output buffer (libretro.cpp lines 319-399)

The C state is `int16_t *audio_out_buffer` (of `audio_out_buffer_size`
int16 entries) together with the write cursor `audio_out_buffer_pos`
(also counted in int16 entries).  We model the allocation as a list of
`Int` whose length is `audio_out_buffer_size`; cells past the cursor are
uninitialised in C and modelled as `0` (they are never read before being
overwritten). -/

/-- The `audio_out_buffer` allocation plus the write cursor. -/
structure AudioBuf where
  data : List Int
  pos : Nat
  deriving Repr, DecidableEq

/-- Well-formedness: the write cursor never exceeds the allocation size
(`audio_out_buffer_size`), which in the C code is `data.length`. -/
def AudioBuf.Valid (st : AudioBuf) : Prop := st.pos ≤ st.data.length

instance (st : AudioBuf) : Decidable st.Valid := by
  unfold AudioBuf.Valid; infer_instance

/-- The committed buffer content: the first `pos` int16 entries, which is
exactly what `audio_upload_samples` will drain. -/
def AudioBuf.content (st : AudioBuf) : List Int := st.data.take st.pos

/-- Free capacity in stereo frames, `(audio_out_buffer_size -
audio_out_buffer_pos) >> 1` (libretro.cpp lines 356-357). -/
def AudioBuf.capacity (st : AudioBuf) : Nat := (st.data.length - st.pos) / 2

/-- The intermediate `tmp_buffer_size` of `audio_out_buffer_resize`
before the geometric factor:
`audio_out_buffer_size + ((num_samples - buffer_capacity) << 1)`
(libretro.cpp lines 364-365; `<< 1` is `* 2` on `size_t`). -/
def resizeTmpSize (num_samples : Nat) (st : AudioBuf) : Nat :=
  st.data.length + (num_samples - st.capacity) * 2

/-- The final `tmp_buffer_size`:
`(tmp_buffer_size << 1) - (tmp_buffer_size >> 1)`, i.e. 1.5x growth
(libretro.cpp line 366; on `size_t` this is `t * 2 - t / 2`). -/
def resizeNewSize (num_samples : Nat) (st : AudioBuf) : Nat :=
  resizeTmpSize num_samples st * 2 - resizeTmpSize num_samples st / 2

/-- `audio_out_buffer_resize` (libretro.cpp lines 354-376): when fewer
than `num_samples` stereo frames fit, allocate `resizeNewSize` entries,
`memcpy` the first `pos` entries across, and free the old allocation.
Fresh cells are modelled as `0`. -/
def audio_out_buffer_resize (num_samples : Nat) (st : AudioBuf) : AudioBuf :=
  if st.capacity < num_samples then
    { data := st.data.take st.pos ++
        List.replicate (resizeNewSize num_samples st - st.pos) 0
      pos := st.pos }
  else
    st

/-- `audio_out_buffer_write` (libretro.cpp lines 378-386): resize for
`num_samples` stereo frames, then `memcpy` `2 * num_samples` int16
values at the cursor and advance the cursor.  `samples` is the source
array; callers pass exactly `2 * num_samples` values. -/
def audio_out_buffer_write (samples : List Int) (num_samples : Nat)
    (st : AudioBuf) : AudioBuf :=
  let st1 := audio_out_buffer_resize num_samples st
  { data := st1.data.take st1.pos ++ samples ++
      st1.data.drop (st1.pos + samples.length)
    pos := st1.pos + num_samples * 2 }

/-- Perform a sequence of `audio_out_buffer_write` calls, oldest first. -/
def writeAll (ws : List (List Int × Nat)) (st : AudioBuf) : AudioBuf :=
  ws.foldl (fun s w => audio_out_buffer_write w.1 w.2 s) st

/-- Each queued write passes a sample array of exactly `2 * num_samples`
int16 values, as every call site in libretro.cpp does. -/
def WritesWF (ws : List (List Int × Nat)) : Prop :=
  ∀ w ∈ ws, (w.1).length = 2 * w.2

instance (ws : List (List Int × Nat)) : Decidable (WritesWF ws) := by
  unfold WritesWF; infer_instance

/-! Helper lemmas about the resize/write pair. -/

theorem resizeNewSize_gt (st : AudioBuf) (num : Nat) (hv : st.Valid)
    (hc : st.capacity < num) :
    st.data.length < resizeNewSize num st ∧
      st.pos + 2 * num < resizeNewSize num st := by
  unfold AudioBuf.Valid at hv
  unfold resizeNewSize resizeTmpSize
  unfold AudioBuf.capacity at hc ⊢
  omega

theorem resize_grows (st : AudioBuf) (num : Nat) (hv : st.Valid)
    (hc : st.capacity < num) :
    st.data.length < (audio_out_buffer_resize num st).data.length ∧
      st.pos + 2 * num < (audio_out_buffer_resize num st).data.length := by
  have hn := resizeNewSize_gt st num hv hc
  unfold AudioBuf.Valid at hv
  unfold audio_out_buffer_resize
  rw [if_pos hc]
  simp only [List.length_append, List.length_take, List.length_replicate]
  omega

theorem resize_valid_capacity (st : AudioBuf) (num : Nat) (hv : st.Valid) :
    (audio_out_buffer_resize num st).Valid ∧
      (audio_out_buffer_resize num st).pos + 2 * num ≤
        (audio_out_buffer_resize num st).data.length ∧
      (audio_out_buffer_resize num st).pos = st.pos := by
  by_cases hc : st.capacity < num
  · have h := resize_grows st num hv hc
    have hp : (audio_out_buffer_resize num st).pos = st.pos := by
      unfold audio_out_buffer_resize
      rw [if_pos hc]
    refine ⟨?_, ?_, hp⟩
    · unfold AudioBuf.Valid
      unfold AudioBuf.Valid at hv
      omega
    · omega
  · unfold audio_out_buffer_resize
    rw [if_neg hc]
    unfold AudioBuf.Valid at hv ⊢
    unfold AudioBuf.capacity at hc
    refine ⟨hv, ?_, rfl⟩
    omega

theorem resize_content (st : AudioBuf) (num : Nat) (hv : st.Valid) :
    (audio_out_buffer_resize num st).content = st.content := by
  unfold AudioBuf.Valid at hv
  unfold audio_out_buffer_resize AudioBuf.content
  by_cases hc : st.capacity < num
  · rw [if_pos hc]
    simp only
    rw [List.take_left']
    simp
    omega
  · rw [if_neg hc]

theorem write_content (st : AudioBuf) (samples : List Int) (num : Nat)
    (hv : st.Valid) (hl : samples.length = 2 * num) :
    (audio_out_buffer_write samples num st).content =
        st.content ++ samples ∧
      (audio_out_buffer_write samples num st).Valid := by
  have hrv := resize_valid_capacity st num hv
  have hrc := resize_content st num hv
  set st1 := audio_out_buffer_resize num st with hst1
  obtain ⟨h1, h2, h3⟩ := hrv
  have h1' : st1.pos ≤ st1.data.length := h1
  unfold audio_out_buffer_write
  rw [← hst1]
  constructor
  · show List.take (st1.pos + num * 2)
        (st1.data.take st1.pos ++ samples ++
          st1.data.drop (st1.pos + samples.length)) =
      st.content ++ samples
    have hta : st1.pos + num * 2 =
        (st1.data.take st1.pos ++ samples).length := by
      simp only [List.length_append, List.length_take]
      omega
    rw [hta, List.take_left' rfl]
    rw [← hrc]
    rfl
  · show st1.pos + num * 2 ≤
      (st1.data.take st1.pos ++ samples ++
        st1.data.drop (st1.pos + samples.length)).length
    simp only [List.length_append, List.length_take, List.length_drop]
    omega

theorem writeAll_content (ws : List (List Int × Nat)) (st : AudioBuf)
    (hv : st.Valid) (hwf : WritesWF ws) :
    (writeAll ws st).content = st.content ++ (ws.map Prod.fst).flatten ∧
      (writeAll ws st).Valid := by
  induction ws generalizing st with
  | nil => simpa [writeAll]
  | cons w ws ih =>
    have hw : (w.1).length = 2 * w.2 := hwf w (by simp)
    have h1 := write_content st w.1 w.2 hv hw
    have h2 := ih (audio_out_buffer_write w.1 w.2 st) h1.2
      (fun x hx => hwf x (by simp [hx]))
    unfold writeAll at *
    simp only [List.foldl_cons]
    rw [h2.1, h1.1]
    simp [h2.2]

/-! ## Upload loop of `audio_upload_samples` (libretro.cpp lines 401-440)

The drain loop repeatedly offers `samples_to_write = min num_samples
audio_batch_frames_max` stereo frames to `audio_batch_cb`, shrinks the
adaptive ceiling to `samples_written` whenever the sink accepted a
nonzero partial amount, and advances by the *offered* amount.  The host
sink is modelled as `sink : Nat → Nat → Nat`, mapping the call index and
the offered count to the accepted count.  The loop is fuel-indexed so
that its termination is a theorem rather than an assumption: `none`
means the fuel ran out before `num_samples` reached zero. -/

/-- One `audio_batch_cb` interaction: buffer offset (in stereo frames),
the offered `samples_to_write`, and the accepted `samples_written`. -/
structure BatchCall where
  off : Nat
  offered : Nat
  accepted : Nat
  deriving Repr, DecidableEq

/-- The batch calls issued by one drain plus the final
`audio_batch_frames_max`. -/
structure UploadRun where
  calls : List BatchCall
  finalMax : Nat
  deriving Repr, DecidableEq

/-- The ceiling after one call: `audio_batch_frames_max` is reassigned
to `samples_written` exactly when `samples_written < samples_to_write`
and `samples_written > 0` (libretro.cpp lines 431-433). -/
def maxAfter (bmax : Nat) (c : BatchCall) : Nat :=
  if c.accepted < c.offered ∧ 0 < c.accepted then c.accepted else bmax

/-- The drain loop of `audio_upload_samples` (libretro.cpp lines
422-437), fuel-indexed.  Arguments: fuel, call index, buffer offset,
`audio_batch_frames_max`, `num_samples` remaining. -/
def uploadSteps (sink : Nat → Nat → Nat) :
    Nat → Nat → Nat → Nat → Nat → Option UploadRun
  | 0, _, _, bmax, num =>
      if num = 0 then some ⟨[], bmax⟩ else none
  | fuel + 1, k, off, bmax, num =>
      if num = 0 then some ⟨[], bmax⟩
      else
        let stw := if bmax < num then bmax else num
        let w := sink k stw
        let bmax' := if w < stw ∧ 0 < w then w else bmax
        match uploadSteps sink fuel (k + 1) (off + stw) bmax' (num - stw) with
        | none => none
        | some r => some ⟨⟨off, stw, w⟩ :: r.calls, r.finalMax⟩

/-- The calls offer consecutive, non-empty chunks that exactly cover the
`n` buffered frames starting at `start`: every buffered frame is offered
exactly once and none is offered twice. -/
def coversFrom : Nat → Nat → List BatchCall → Prop
  | _, n, [] => n = 0
  | start, n, c :: rest =>
      c.off = start ∧ 0 < c.offered ∧ c.offered ≤ n ∧
        coversFrom (start + c.offered) (n - c.offered) rest

/-- Every call offers at most the ceiling in force at that call, where
the ceiling evolves by `maxAfter` (partial nonzero acceptance becomes
the new ceiling for all subsequent calls). -/
def ceilingAdapted : Nat → List BatchCall → Prop
  | _, [] => True
  | bmax, c :: rest => c.offered ≤ bmax ∧ ceilingAdapted (maxAfter bmax c) rest

/-- The ceiling in force before every call (and at the end) is strictly
positive. -/
def ceilingsPos : Nat → List BatchCall → Prop
  | bmax, [] => 0 < bmax
  | bmax, c :: rest => 0 < bmax ∧ ceilingsPos (maxAfter bmax c) rest

/-- Main inductive characterisation of the drain loop: with any fuel of
at least `num` and a positive initial ceiling it completes, covers the
buffer exactly once, respects the adaptive ceiling, and keeps the
ceiling strictly positive throughout. -/
theorem uploadSteps_spec (sink : Nat → Nat → Nat) :
    ∀ fuel num k off bmax, num ≤ fuel → 0 < bmax →
      ∃ r, uploadSteps sink fuel k off bmax num = some r ∧
        coversFrom off num r.calls ∧ ceilingAdapted bmax r.calls ∧
        ceilingsPos bmax r.calls ∧ 0 < r.finalMax := by
  intro fuel
  induction fuel with
  | zero =>
      intro num k off bmax hf hb
      have hnum : num = 0 := Nat.le_zero.mp hf
      subst hnum
      exact ⟨⟨[], bmax⟩, by simp [uploadSteps], rfl, trivial, hb, hb⟩
  | succ fuel ih =>
      intro num k off bmax hf hb
      by_cases hz : num = 0
      · subst hz
        exact ⟨⟨[], bmax⟩, by simp [uploadSteps], rfl, trivial, hb, hb⟩
      · have hnum : 0 < num := Nat.pos_of_ne_zero hz
        set stw := if bmax < num then bmax else num with hstw
        have hstw_pos : 0 < stw := by
          rw [hstw]; split <;> omega
        have hstw_le_num : stw ≤ num := by
          rw [hstw]; split <;> omega
        have hstw_le_bmax : stw ≤ bmax := by
          rw [hstw]; split <;> omega
        set w := sink k stw with hw
        set bmax' := if w < stw ∧ 0 < w then w else bmax with hbmax'
        have hb' : 0 < bmax' := by
          rw [hbmax']; split <;> omega
        obtain ⟨r, hr, hcov, hca, hcp, hfm⟩ :=
          ih (num - stw) (k + 1) (off + stw) bmax' (by omega) hb'
        refine ⟨⟨⟨off, stw, w⟩ :: r.calls, r.finalMax⟩, ?_, ?_, ?_, ?_, hfm⟩
        · show uploadSteps sink (fuel + 1) k off bmax num = _
          rw [uploadSteps, if_neg hz]
          simp only [← hstw, ← hw, ← hbmax', hr]
        · exact ⟨rfl, hstw_pos, hstw_le_num, hcov⟩
        · refine ⟨hstw_le_bmax, ?_⟩
          have : maxAfter bmax ⟨off, stw, w⟩ = bmax' := by
            rw [hbmax']; rfl
          rw [this]; exact hca
        · refine ⟨hb, ?_⟩
          have : maxAfter bmax ⟨off, stw, w⟩ = bmax' := by
            rw [hbmax']; rfl
          rw [this]; exact hcp

/-! ## Claim theorems for the output buffer and the upload loop -/

/-- C5: output buffer growth preserves content.  When the free capacity
cannot hold `num` incoming stereo frames, `audio_out_buffer_resize`
grows the allocation by strictly more than the immediate deficit (the
new size strictly exceeds both the old size and `pos + 2 * num`, the
total space the pending write needs); and after any sequence of
`audio_out_buffer_write` calls since the last cursor reset, the buffer
content — exactly what will be drained — is the concatenation of all
samples written, with no previously written sample corrupted or
dropped. -/
theorem audio_out_buffer_growth_preserves_content :
    (∀ st num, st.Valid → st.capacity < num →
      st.data.length < (audio_out_buffer_resize num st).data.length ∧
        st.pos + 2 * num < (audio_out_buffer_resize num st).data.length) ∧
    (∀ ws st, st.Valid → st.pos = 0 → WritesWF ws →
      (writeAll ws st).content = (ws.map Prod.fst).flatten) := by
  constructor
  · exact fun st num hv hc => resize_grows st num hv hc
  · intro ws st hv hp hwf
    have h := writeAll_content ws st hv hwf
    rw [h.1]
    unfold AudioBuf.content
    rw [hp]
    simp

/-- Witness for C5: start with a 4-entry buffer at cursor 0, write 1
stereo frame, then write 6 frames (forcing a growth reallocation); the
drained content is the exact concatenation of both writes. -/
theorem audio_out_buffer_growth_witness :
    (writeAll [([10, 11], 1), ([1, 2, 3, 4, 5, 6, 7, 8, 9, 10, 11, 12], 6)]
        ⟨[0, 0, 0, 0], 0⟩).content =
      ([[10, 11], [1, 2, 3, 4, 5, 6, 7, 8, 9, 10, 11, 12]] : List (List Int)).flatten :=
  audio_out_buffer_growth_preserves_content.2
    [([10, 11], 1), ([1, 2, 3, 4, 5, 6, 7, 8, 9, 10, 11, 12], 6)]
    ⟨[0, 0, 0, 0], 0⟩ (by decide) rfl (by decide)

/-- C8 (implicit): `audio_batch_frames_max` starts strictly positive
(`1 << 16`), the loop reassigns it only to a strictly positive
`samples_written`, so the ceiling in force before every batch call is
strictly positive and the drain loop completes for every finite buffer
content — fuel equal to the number of buffered frames already
suffices. -/
theorem audio_batch_frames_max_positive_and_loop_terminates :
    0 < audio_batch_frames_max_init ∧
    ∀ (sink : Nat → Nat → Nat) num k off bmax, 0 < bmax →
      ∃ r, uploadSteps sink num k off bmax num = some r ∧
        ceilingsPos bmax r.calls ∧ 0 < r.finalMax := by
  refine ⟨by decide, fun sink num k off bmax hb => ?_⟩
  obtain ⟨r, hr, _, _, hcp, hfm⟩ :=
    uploadSteps_spec sink num num k off bmax (Nat.le_refl num) hb
  exact ⟨r, hr, hcp, hfm⟩

/-- Witness for C8: a sink that accepts everything drains 3 buffered
frames with ceiling 2 and completes with a positive ceiling. -/
theorem audio_batch_loop_terminates_witness :
    0 < audio_batch_frames_max_init ∧
      ∃ r, uploadSteps (fun _ n => n) 3 0 0 2 3 = some r ∧
        ceilingsPos 2 r.calls ∧ 0 < r.finalMax :=
  ⟨audio_batch_frames_max_positive_and_loop_terminates.1,
    audio_batch_frames_max_positive_and_loop_terminates.2
      (fun _ n => n) 3 0 0 2 (by decide)⟩

/-- Counterexample for C4 as stated: with 4 buffered frames and a sink
that accepts only 2 of the 4 frames offered in the first batch, the
drain issues exactly one call — the 2 declined frames are never
re-offered (the loop advances by the offered amount, libretro.cpp line
435), so only 2 of the 4 buffered frames are delivered: buffered
samples are lost, not retried. -/
theorem audio_upload_no_retry_counterexample :
    uploadSteps (fun k n => if k = 0 then 2 else n) 4 0 0 65536 4 =
        some ⟨[⟨0, 4, 2⟩], 2⟩ ∧
      ((UploadRun.calls ⟨[⟨0, 4, 2⟩], 2⟩).map BatchCall.accepted).sum ≠ 4 := by
  constructor
  · rfl
  · decide

/-- C4 amended: when the sink accepts fewer frames than offered (and
more than zero), the accepted size becomes the adaptive ceiling for all
subsequent batch calls; the drain continues through the rest of the
buffer within the same tick, offering every buffered frame exactly
once — but frames the sink declined within a partial batch are dropped,
not retried. -/
theorem audio_upload_adaptive_ceiling :
    ∀ (sink : Nat → Nat → Nat) num bmax, 0 < bmax →
      ∃ r, uploadSteps sink num 0 0 bmax num = some r ∧
        coversFrom 0 num r.calls ∧ ceilingAdapted bmax r.calls := by
  intro sink num bmax hb
  obtain ⟨r, hr, hcov, hca, _, _⟩ :=
    uploadSteps_spec sink num num 0 0 bmax (Nat.le_refl num) hb
  exact ⟨r, hr, hcov, hca⟩

/-- Witness for the amended C4: 10 buffered frames, ceiling 4, a sink
accepting 1 frame on the first call and everything afterwards: the
drain covers all 10 frames in consecutive chunks and every later chunk
respects the shrunken ceiling of 1. -/
theorem audio_upload_adaptive_ceiling_witness :
    ∃ r, uploadSteps (fun k n => if k = 0 then 1 else n) 10 0 0 4 10 = some r ∧
      coversFrom 0 10 r.calls ∧ ceilingAdapted 4 r.calls :=
  audio_upload_adaptive_ceiling (fun k n => if k = 0 then 1 else n) 10 4
    (by decide)

/-! ## Frame Pacer and tick loop (`retro_run_internal`, libretro.cpp
lines 3379-3563, SF2000 build with the splash screen already shown)

`GB::runFor` is external: within one non-dupe tick the while-loop calls
it until a frame completes.  One completed frame-step is modelled as a
`FrameRun`: the sample counts of the `runFor` calls that returned `-1`
(`loopChunks`, each added to `samples_count` inside the loop) plus the
sample count of the completing call (`finalChunk`, added after the loop
at line 3540).  The emulation core is a stream `core : Nat → FrameRun`
indexed by a running step counter. -/

/-- One completed `GB::runFor` frame-step. -/
structure FrameRun where
  loopChunks : List Nat
  finalChunk : Nat

/-- The static counters and speed-controller globals read by
`retro_run_internal`: `samples_count`, `frames_count` (lines 3381-3382),
`sf2000_fastforward_state`, `sf2000_slowmotion_state`,
`sf2000_slowmotion_frame_counter` (lines 63-68), plus the index into the
core's frame-step stream. -/
structure PacerState where
  samples_count : Nat
  frames_count : Nat
  ff_state : Nat
  sm_state : Nat
  sm_counter : Nat
  stepIdx : Nat
  deriving Repr, DecidableEq

/-- One frame handed to `video_cb`: a null/sentinel duplicate or a
genuine buffer, with the width/height/pitch-in-bytes metadata. -/
inductive FrameOut where
  | dupe (w h pitchBytes : Nat)
  | genuine (w h pitchBytes : Nat)
  deriving Repr, DecidableEq

/-- Whether a delivered frame is a genuine (non-sentinel) buffer. -/
def FrameOut.isGenuine : FrameOut → Bool
  | .dupe _ _ _ => false
  | .genuine _ _ _ => true

/-- The sentinel dupe frame:
`video_cb(NULL, VIDEO_WIDTH, VIDEO_HEIGHT, VIDEO_PITCH * sizeof(video_pixel_t))`
(libretro.cpp line 3393). -/
def dupeFrame : FrameOut :=
  FrameOut.dupe VIDEO_WIDTH VIDEO_HEIGHT (VIDEO_PITCH * videoPixelBytes)

/-- A genuine frame delivery of `video_buf` with the same metadata
(libretro.cpp line 3529). -/
def genuineFrame : FrameOut :=
  FrameOut.genuine VIDEO_WIDTH VIDEO_HEIGHT (VIDEO_PITCH * videoPixelBytes)

/-- What one `retro_run_internal` call did: the updated globals, the
frames handed to `video_cb` in order, the number of completed
`GB::runFor` frame-steps, the number of samples pushed into the
resampler, and whether `audio_upload_samples` was invoked. -/
structure TickResult where
  st : PacerState
  framesOut : List FrameOut
  coreSteps : Nat
  audioPushed : Nat
  uploaded : Bool

/-- The SF2000 fast-forward iteration count: state 1 is 3x, any other
active state is 5x (libretro.cpp lines 3364, 3424, 3551). -/
def sf2000_iterations (ff : Nat) : Nat := if ff = 1 then 3 else 5

/-- Total samples a frame-step adds to `samples_count` in normal
mode. -/
def FrameRun.total (fr : FrameRun) : Nat := fr.loopChunks.sum + fr.finalChunk

/-- `retro_run_internal` (libretro.cpp lines 3379-3563), for the SF2000
build after the splash screen has been shown.  Branches, in order:

* dupe detection (lines 3390-3396): if `frames_count <
  samples_count / SOUND_SAMPLES_PER_FRAME`, deliver the null sentinel
  frame, increment `frames_count` by one, and return — no `runFor`, no
  resampler input, no upload;
* fast-forward (lines 3422-3447): run `sf2000_iterations` frame-steps;
  loop-chunk samples are counted inside each step's while-loop, but each
  intermediate step's completing chunk is overwritten by
  `samples = SOUND_SAMPLES_PER_RUN` at the start of the next step, so
  only the last step's completing chunk reaches line 3540; no audio is
  pushed inside the loop, and only that last completing chunk is pushed
  at line 3535; `frames_count += sf2000_iterations` (lines 3549-3553);
* slow motion (lines 3449-3494): run one frame-step on every 2nd (state
  1) or 5th (state 2) tick; on skipped ticks no `runFor` runs but the
  fall-through still pushes the stale `samples = SOUND_SAMPLES_PER_RUN`
  into lines 3531-3540, re-delivers `video_buf`, and increments
  `frames_count`; loop-chunk audio is pushed only when
  `fast_forward_audio_enabled`;
* normal speed (lines 3499-3514): one frame-step, all chunks pushed.

All non-dupe branches deliver one `video_buf` frame (line 3529) and call
`audio_upload_samples` (line 3541). -/
def retro_run_internal (core : Nat → FrameRun) (ffAudioEnabled : Bool)
    (st : PacerState) : TickResult :=
  if st.frames_count < st.samples_count / SOUND_SAMPLES_PER_FRAME then
    ⟨{ st with frames_count := st.frames_count + 1 }, [dupeFrame], 0, 0, false⟩
  else if 0 < st.ff_state then
    let m := sf2000_iterations st.ff_state
    let loopSum :=
      ((List.range m).map (fun i => (core (st.stepIdx + i)).loopChunks.sum)).sum
    let lastFinal := (core (st.stepIdx + m - 1)).finalChunk
    ⟨{ st with
        samples_count := st.samples_count + loopSum + lastFinal
        frames_count := st.frames_count + m
        stepIdx := st.stepIdx + m },
      [genuineFrame], m, lastFinal, true⟩
  else if 0 < st.sm_state then
    if (if st.sm_state = 1 then st.sm_counter % 2 = 0 else st.sm_counter % 5 = 0) then
      let fr := core st.stepIdx
      ⟨{ st with
          samples_count := st.samples_count + fr.loopChunks.sum + fr.finalChunk
          frames_count := st.frames_count + 1
          sm_counter := st.sm_counter + 1
          stepIdx := st.stepIdx + 1 },
        [genuineFrame], 1,
        (if ffAudioEnabled then fr.loopChunks.sum else 0) + fr.finalChunk, true⟩
    else
      ⟨{ st with
          samples_count := st.samples_count + SOUND_SAMPLES_PER_RUN
          frames_count := st.frames_count + 1
          sm_counter := st.sm_counter + 1 },
        [genuineFrame], 0, SOUND_SAMPLES_PER_RUN, true⟩
  else
    let fr := core st.stepIdx
    ⟨{ st with
        samples_count := st.samples_count + fr.loopChunks.sum + fr.finalChunk
        frames_count := st.frames_count + 1
        stepIdx := st.stepIdx + 1 },
      [genuineFrame], 1, fr.loopChunks.sum + fr.finalChunk, true⟩

/-- `n` sequential `retro_run_internal` calls with accumulated
observables. -/
def seqRunInternal (core : Nat → FrameRun) (ffAudioEnabled : Bool) :
    Nat → PacerState → TickResult
  | 0, st => ⟨st, [], 0, 0, false⟩
  | n + 1, st =>
      let r := retro_run_internal core ffAudioEnabled st
      let r2 := seqRunInternal core ffAudioEnabled n r.st
      ⟨r2.st, r.framesOut ++ r2.framesOut, r.coreSteps + r2.coreSteps,
        r.audioPushed + r2.audioPushed, r.uploaded || r2.uploaded⟩

/-- `retro_run` (libretro.cpp lines 3358-3377): with SF2000 fast-forward
active, the host tick invokes `retro_run_internal` 3 (state 1) or 5
(otherwise) times; otherwise once. -/
def retro_run (core : Nat → FrameRun) (ffAudioEnabled : Bool)
    (st : PacerState) : TickResult :=
  if 0 < st.ff_state then
    seqRunInternal core ffAudioEnabled (sf2000_iterations st.ff_state) st
  else
    retro_run_internal core ffAudioEnabled st

/-! Helper lemmas about `retro_run_internal`. -/

theorem internal_dupe_eq (core : Nat → FrameRun) (ffA : Bool)
    (st : PacerState)
    (h : st.frames_count < st.samples_count / SOUND_SAMPLES_PER_FRAME) :
    retro_run_internal core ffA st =
      ⟨{ st with frames_count := st.frames_count + 1 },
        [dupeFrame], 0, 0, false⟩ := by
  unfold retro_run_internal
  rw [if_pos h]

theorem internal_ff_eq (core : Nat → FrameRun) (ffA : Bool)
    (st : PacerState)
    (h : ¬ st.frames_count < st.samples_count / SOUND_SAMPLES_PER_FRAME)
    (hff : 0 < st.ff_state) :
    retro_run_internal core ffA st =
      ⟨{ st with
          samples_count := st.samples_count +
            ((List.range (sf2000_iterations st.ff_state)).map
              (fun i => (core (st.stepIdx + i)).loopChunks.sum)).sum +
            (core (st.stepIdx + sf2000_iterations st.ff_state - 1)).finalChunk
          frames_count := st.frames_count + sf2000_iterations st.ff_state
          stepIdx := st.stepIdx + sf2000_iterations st.ff_state },
        [genuineFrame], sf2000_iterations st.ff_state,
        (core (st.stepIdx + sf2000_iterations st.ff_state - 1)).finalChunk,
        true⟩ := by
  unfold retro_run_internal
  rw [if_neg h, if_pos hff]

theorem internal_preserves_speed (core : Nat → FrameRun) (ffA : Bool)
    (st : PacerState) :
    (retro_run_internal core ffA st).st.ff_state = st.ff_state ∧
      (retro_run_internal core ffA st).st.sm_state = st.sm_state := by
  unfold retro_run_internal
  repeat' split
  all_goals exact ⟨rfl, rfl⟩

theorem seq_ff_nodupe (core : Nat → FrameRun) (ffA : Bool) :
    ∀ (n : Nat) (st : PacerState), 0 < st.ff_state →
      (∀ f ∈ (seqRunInternal core ffA n st).framesOut, f.isGenuine = true) →
      (seqRunInternal core ffA n st).coreSteps =
          n * sf2000_iterations st.ff_state ∧
        (seqRunInternal core ffA n st).st.frames_count =
          st.frames_count + n * sf2000_iterations st.ff_state ∧
        (seqRunInternal core ffA n st).st.ff_state = st.ff_state := by
  intro n
  induction n with
  | zero => intro st hff _; simp [seqRunInternal]
  | succ n ih =>
      intro st hff hgen
      by_cases hd : st.frames_count < st.samples_count / SOUND_SAMPLES_PER_FRAME
      · exfalso
        have hmem : dupeFrame ∈ (seqRunInternal core ffA (n + 1) st).framesOut := by
          show dupeFrame ∈ (let r := retro_run_internal core ffA st
            let r2 := seqRunInternal core ffA n r.st
            TickResult.framesOut ⟨r2.st, r.framesOut ++ r2.framesOut,
              r.coreSteps + r2.coreSteps,
              r.audioPushed + r2.audioPushed, r.uploaded || r2.uploaded⟩)
          simp only [internal_dupe_eq core ffA st hd]
          simp
        have := hgen dupeFrame hmem
        simp [dupeFrame, FrameOut.isGenuine] at this
      · have heq := internal_ff_eq core ffA st hd hff
        have hseq : seqRunInternal core ffA (n + 1) st =
            let r := retro_run_internal core ffA st
            let r2 := seqRunInternal core ffA n r.st
            ⟨r2.st, r.framesOut ++ r2.framesOut, r.coreSteps + r2.coreSteps,
              r.audioPushed + r2.audioPushed, r.uploaded || r2.uploaded⟩ := rfl
        rw [hseq, heq]
        simp only
        have hff' : 0 < (retro_run_internal core ffA st).st.ff_state := by
          rw [(internal_preserves_speed core ffA st).1]; exact hff
        rw [heq] at hff'
        have hgen' : ∀ f ∈ (seqRunInternal core ffA n
            (retro_run_internal core ffA st).st).framesOut, f.isGenuine = true := by
          intro f hf
          apply hgen
          rw [hseq]
          simp only [List.mem_append]
          right
          rw [heq] at hf ⊢
          exact hf
        rw [heq] at hgen'
        obtain ⟨h1, h2, h3⟩ := ih _ hff' hgen'
        rw [h1, h2, h3]
        refine ⟨by ring, by simp only; ring, rfl⟩

/-! ## Claim theorems for the Frame Pacer and the speed controller -/

/-- C1 amended: on every internal tick entered with
`frames_count < samples_count / SOUND_SAMPLES_PER_FRAME`, the pipeline
delivers exactly the null sentinel frame with the normal
width/height/pitch metadata, increments `frames_count` by exactly one
(not by the active speed multiplier), and returns without running
`GB::runFor`, without modifying `samples_count`, without pushing any
sample into the resampler, and without touching the audio output
buffer. -/
theorem dupe_tick_delivers_sentinel :
    ∀ (core : Nat → FrameRun) (ffA : Bool) (st : PacerState),
      st.frames_count < st.samples_count / SOUND_SAMPLES_PER_FRAME →
      retro_run_internal core ffA st =
        ⟨{ st with frames_count := st.frames_count + 1 },
          [dupeFrame], 0, 0, false⟩ :=
  fun core ffA st h => internal_dupe_eq core ffA st h

/-- Witness for C1: a normal-speed state with two frames owed delivers
one sentinel frame and increments `frames_count` to 2. -/
theorem dupe_tick_delivers_sentinel_witness :
    (1 : Nat) < 70224 / SOUND_SAMPLES_PER_FRAME ∧
      retro_run_internal (fun _ => ⟨[], 0⟩) false ⟨70224, 1, 0, 0, 0, 0⟩ =
        ⟨⟨70224, 2, 0, 0, 0, 0⟩, [dupeFrame], 0, 0, false⟩ :=
  ⟨by decide,
    dupe_tick_delivers_sentinel (fun _ => ⟨[], 0⟩) false
      ⟨70224, 1, 0, 0, 0, 0⟩ (by decide)⟩

/-- Counterexample for C1 as stated: with fast-forward state 1 the speed
multiplier in effect is 3 (`sf2000_iterations 1 = 3`, used at
libretro.cpp line 3551), yet a dupe tick increments `frames_count` by
exactly one (line 3394), not by the multiplier. -/
theorem dupe_tick_multiplier_counterexample :
    (retro_run_internal (fun _ => ⟨[], 0⟩) false
        ⟨70224, 0, 1, 0, 0, 0⟩).st.frames_count = 1 ∧
      sf2000_iterations 1 = 3 ∧ (1 : Nat) ≠ 3 := by
  refine ⟨rfl, rfl, by decide⟩

/-- C2 amended: fast-forward level `n > 0` maps to the iteration
multiplier `m = sf2000_iterations n` (3 for level 1, 5 otherwise), not
`n + 1`; one host `retro_run` tick makes `m` internal runs, and each
internal run that does not take the dupe branch runs `m` emulation
steps and advances `frames_count` by `m`; hence a host tick in which
every delivered frame is genuine runs `m * m` emulation steps and
advances `frames_count` by `m * m`. -/
theorem fastforward_tick_steps :
    ∀ (core : Nat → FrameRun) (ffA : Bool) (st : PacerState),
      0 < st.ff_state →
      (∀ f ∈ (retro_run core ffA st).framesOut, f.isGenuine = true) →
      (retro_run core ffA st).coreSteps =
          sf2000_iterations st.ff_state * sf2000_iterations st.ff_state ∧
        (retro_run core ffA st).st.frames_count =
          st.frames_count +
            sf2000_iterations st.ff_state * sf2000_iterations st.ff_state := by
  intro core ffA st hff hgen
  unfold retro_run at hgen ⊢
  rw [if_pos hff] at hgen ⊢
  obtain ⟨h1, h2, _⟩ :=
    seq_ff_nodupe core ffA (sf2000_iterations st.ff_state) st hff hgen
  exact ⟨h1, h2⟩

/-- Witness for the amended C2: at fast-forward state 1 with a core
producing exactly one frame of 35112 samples per step, the host tick
runs 9 emulation steps and advances `frames_count` by 9. -/
theorem fastforward_tick_steps_witness :
    (∀ f ∈ (retro_run (fun _ => ⟨[], 35112⟩) false
        ⟨0, 0, 1, 0, 0, 0⟩).framesOut, f.isGenuine = true) ∧
      (retro_run (fun _ => ⟨[], 35112⟩) false ⟨0, 0, 1, 0, 0, 0⟩).coreSteps =
          sf2000_iterations 1 * sf2000_iterations 1 ∧
        (retro_run (fun _ => ⟨[], 35112⟩) false
            ⟨0, 0, 1, 0, 0, 0⟩).st.frames_count =
          0 + sf2000_iterations 1 * sf2000_iterations 1 :=
  ⟨by decide,
    fastforward_tick_steps (fun _ => ⟨[], 35112⟩) false ⟨0, 0, 1, 0, 0, 0⟩
      (by decide) (by decide)⟩

/-- Counterexample for C2 as stated: at fast-forward level 1 the claim
predicts `1 + 1 = 2` emulation steps per host tick, but the code runs
`retro_run_internal` 3 times, each running 3 steps: 9 completed
`GB::runFor` frames and `frames_count` advanced by 9. -/
theorem fastforward_tick_steps_counterexample :
    (retro_run (fun _ => ⟨[], 35112⟩) false ⟨0, 0, 1, 0, 0, 0⟩).coreSteps = 9 ∧
      (retro_run (fun _ => ⟨[], 35112⟩) false
          ⟨0, 0, 1, 0, 0, 0⟩).st.frames_count = 9 ∧
      (9 : Nat) ≠ 1 + 1 := by
  refine ⟨rfl, rfl, by decide⟩

/-- The pacer state at the start of a session: both static counters are
zero (libretro.cpp lines 3381-3382) and no speed mode is active. -/
def pacerStart : PacerState := ⟨0, 0, 0, 0, 0, 0⟩

/-- C3 as stated: there is a core behaviour realising the spec's pacing
scenario — two ticks from a fresh session, 70224 samples produced in
total, no frame completed on tick 1, with the pipeline delivering a
duplicate frame first and a genuine frame second and ending with
`frames_count = 2`. -/
def pacingScenarioAsStated : Prop :=
  ∃ (core : Nat → FrameRun) (ffA : Bool),
    (retro_run_internal core ffA pacerStart).coreSteps = 0 ∧
    (retro_run_internal core ffA
        (retro_run_internal core ffA pacerStart).st).st.samples_count =
      2 * SOUND_SAMPLES_PER_FRAME ∧
    (retro_run_internal core ffA pacerStart).framesOut = [dupeFrame] ∧
    (retro_run_internal core ffA
        (retro_run_internal core ffA pacerStart).st).framesOut =
      [genuineFrame] ∧
    (retro_run_internal core ffA
        (retro_run_internal core ffA pacerStart).st).st.frames_count = 2

/-- Counterexample for C3 as stated: the scenario is unrealisable.  From
a fresh session `frames_count = samples_count = 0`, so the dupe branch
cannot fire on tick 1; the non-dupe tick's while-loop always runs
`GB::runFor` until a frame completes, so tick 1 always completes exactly
one frame — "no frame completed on tick 1" is impossible. -/
theorem pacing_scenario_counterexample : ¬ pacingScenarioAsStated := by
  rintro ⟨core, ffA, h1, -⟩
  have h2 : (retro_run_internal core ffA pacerStart).coreSteps = 1 := rfl
  omega

/-- C3 amended: with `samples_per_frame = 35112` and the core producing
all 70224 samples during the single frame-step of tick 1 (none on tick
2), the pipeline delivers one genuine frame on tick 1 followed by one
duplicate frame on tick 2 — it is tick 2 that completes no frame — and
afterwards `frames_count = 2` with `samples_count = 70224`. -/
theorem pacing_scenario_amended :
    (retro_run_internal (fun _ => ⟨[35112], 35112⟩) false
        pacerStart).framesOut = [genuineFrame] ∧
      (retro_run_internal (fun _ => ⟨[35112], 35112⟩) false
          pacerStart).coreSteps = 1 ∧
      (retro_run_internal (fun _ => ⟨[35112], 35112⟩) false
          pacerStart).st.samples_count = 70224 ∧
      (retro_run_internal (fun _ => ⟨[35112], 35112⟩) false
          (retro_run_internal (fun _ => ⟨[35112], 35112⟩) false
            pacerStart).st).framesOut = [dupeFrame] ∧
      (retro_run_internal (fun _ => ⟨[35112], 35112⟩) false
          (retro_run_internal (fun _ => ⟨[35112], 35112⟩) false
            pacerStart).st).coreSteps = 0 ∧
      (retro_run_internal (fun _ => ⟨[35112], 35112⟩) false
          (retro_run_internal (fun _ => ⟨[35112], 35112⟩) false
            pacerStart).st).st.frames_count = 2 ∧
      (retro_run_internal (fun _ => ⟨[35112], 35112⟩) false
          (retro_run_internal (fun _ => ⟨[35112], 35112⟩) false
            pacerStart).st).st.samples_count = 70224 := by
  refine ⟨rfl, rfl, rfl, rfl, rfl, rfl, rfl⟩

/-! ## Speed-controller input handling (`update_input_state`,
libretro.cpp lines 1794-1834 / 1854-1894: identical logic in the bitmask
and non-bitmask paths) -/

/-- The raw pad levels the chord detection reads: SELECT, A and B. -/
structure SpeedChord where
  sel : Bool
  a : Bool
  b : Bool

/-- The speed-controller globals mutated by the chord handling. -/
structure SpeedState where
  ff_state : Nat
  sm_state : Nat
  sm_counter : Nat
  select_a_prev : Bool
  select_b_prev : Bool
  deriving Repr, DecidableEq

/-- The SELECT+A / SELECT+B chord handling of `update_input_state`
(libretro.cpp lines 1794-1834): on a rising edge of SELECT+A, reset slow
motion and advance `sf2000_fastforward_state = (state + 1) % 3`; then
remember the chord level; then, on a rising edge of SELECT+B, reset fast
forward and advance `sf2000_slowmotion_state = (state + 1) % 3`; then
remember that chord level. -/
def update_speed_state (inp : SpeedChord) (st : SpeedState) : SpeedState :=
  let aCur := inp.sel && inp.a
  let st1 :=
    if aCur && !st.select_a_prev then
      { st with sm_state := 0, sm_counter := 0, ff_state := (st.ff_state + 1) % 3 }
    else st
  let st2 := { st1 with select_a_prev := aCur }
  let bCur := inp.sel && inp.b
  let st3 :=
    if bCur && !st2.select_b_prev then
      { st2 with ff_state := 0, sm_state := (st2.sm_state + 1) % 3, sm_counter := 0 }
    else st2
  { st3 with select_b_prev := bCur }

/-- C6: the fast-forward chord state machine.  Each rising edge of the
SELECT+A chord (chord held now, not held on the previous tick) advances
the fast-forward state one step along the cycle `0 → 1 → 2 → 0` and
cancels slow motion; holding the chord level without a new rising edge
leaves the speed states untouched; and from `Normal` three consecutive
edges cycle `Normal → FastForward(1) → FastForward(2) → Normal`. -/
theorem speed_chord_cycle :
    (∀ st : SpeedState, st.select_a_prev = false →
      (update_speed_state ⟨true, true, false⟩ st).ff_state =
          (st.ff_state + 1) % 3 ∧
        (update_speed_state ⟨true, true, false⟩ st).sm_state = 0) ∧
    (∀ st : SpeedState, st.select_a_prev = true →
      (update_speed_state ⟨true, true, false⟩ st).ff_state = st.ff_state ∧
        (update_speed_state ⟨true, true, false⟩ st).sm_state = st.sm_state ∧
        (update_speed_state ⟨true, true, false⟩ st).sm_counter = st.sm_counter) ∧
    ((update_speed_state ⟨true, true, false⟩ ⟨0, 0, 0, false, false⟩).ff_state = 1 ∧
      (update_speed_state ⟨true, true, false⟩
        (update_speed_state ⟨false, false, false⟩
          (update_speed_state ⟨true, true, false⟩
            ⟨0, 0, 0, false, false⟩))).ff_state = 2 ∧
      (update_speed_state ⟨true, true, false⟩
        (update_speed_state ⟨false, false, false⟩
          (update_speed_state ⟨true, true, false⟩
            (update_speed_state ⟨false, false, false⟩
              (update_speed_state ⟨true, true, false⟩
                ⟨0, 0, 0, false, false⟩))))).ff_state = 0) := by
  refine ⟨?_, ?_, by decide, by decide, by decide⟩
  · intro st h
    simp [update_speed_state, h]
  · intro st h
    simp [update_speed_state, h]

/-- Witness for C6: a rising edge from fast-forward state 2 wraps back
to `Normal` and cancels an active slow-motion state. -/
theorem speed_chord_cycle_witness :
    ((⟨2, 1, 4, false, false⟩ : SpeedState).select_a_prev = false ∧
        (update_speed_state ⟨true, true, false⟩
            (⟨2, 1, 4, false, false⟩ : SpeedState)).ff_state = (2 + 1) % 3 ∧
          (update_speed_state ⟨true, true, false⟩
              (⟨2, 1, 4, false, false⟩ : SpeedState)).sm_state = 0) ∧
      ((⟨1, 0, 0, true, false⟩ : SpeedState).select_a_prev = true ∧
        (update_speed_state ⟨true, true, false⟩
            (⟨1, 0, 0, true, false⟩ : SpeedState)).ff_state = 1) :=
  ⟨⟨rfl,
      speed_chord_cycle.1 ⟨2, 1, 4, false, false⟩ rfl⟩,
    ⟨rfl,
      ((speed_chord_cycle.2.1 ⟨1, 0, 0, true, false⟩ rfl).1)⟩⟩

/-! ## Opposing-direction filtering (`update_input_state`,
libretro.cpp lines 1910-1919, 1932-1955, 1989) -/

/-- Modelled from the spec: the `gambatte::InputGetter` button bit
masks.  They are declared in libgambatte's public header, which is not
under `src/`; they are the standard distinct single-bit masks, and the
claims depend only on the bits being distinct. -/
def btnA : Nat := 0x01

/-- Modelled from the spec: `gambatte::InputGetter::B`. -/
def btnB : Nat := 0x02

/-- Modelled from the spec: `gambatte::InputGetter::SELECT`. -/
def btnSELECT : Nat := 0x04

/-- Modelled from the spec: `gambatte::InputGetter::START`. -/
def btnSTART : Nat := 0x08

/-- Modelled from the spec: `gambatte::InputGetter::RIGHT`. -/
def btnRIGHT : Nat := 0x10

/-- Modelled from the spec: `gambatte::InputGetter::LEFT`. -/
def btnLEFT : Nat := 0x20

/-- Modelled from the spec: `gambatte::InputGetter::UP`. -/
def btnUP : Nat := 0x40

/-- Modelled from the spec: `gambatte::InputGetter::DOWN`. -/
def btnDOWN : Nat := 0x80

/-- `res &= ~mask` on a 32-bit unsigned, for values below `2^32`. -/
def clearBits32 (res mask : Nat) : Nat := res &&& (4294967295 ^^^ mask)

/-- The pad-to-Game-Boy mapping loop (libretro.cpp lines 1788-1792):
`res` is the OR of the pressed buttons' Game Boy masks. -/
def buildInputRes (pA pB pSel pStart pRight pLeft pUp pDown : Bool) : Nat :=
  (if pA then btnA else 0) ||| (if pB then btnB else 0) |||
    (if pSel then btnSELECT else 0) ||| (if pStart then btnSTART else 0) |||
    (if pRight then btnRIGHT else 0) ||| (if pLeft then btnLEFT else 0) |||
    (if pUp then btnUP else 0) ||| (if pDown then btnDOWN else 0)

/-- The opposing-direction filter (libretro.cpp lines 1910-1919): when
`up_down_allowed` is false, clear both UP and DOWN if both are set, then
clear both LEFT and RIGHT if both are set. -/
def apply_up_down_filter (up_down_allowed : Bool) (res : Nat) : Nat :=
  if up_down_allowed then res
  else
    let res1 :=
      if res &&& btnUP ≠ 0 ∧ res &&& btnDOWN ≠ 0 then
        clearBits32 res (btnUP ||| btnDOWN)
      else res
    if res1 &&& btnLEFT ≠ 0 ∧ res1 &&& btnRIGHT ≠ 0 then
      clearBits32 res1 (btnLEFT ||| btnRIGHT)
    else res1

/-- The turbo handling (libretro.cpp lines 1932-1955): during the active
phase of the pulse, OR in the A and/or B mask. -/
def apply_turbo (turboAPulse turboBPulse : Bool) (res : Nat) : Nat :=
  let res1 := if turboAPulse then res ||| btnA else res
  if turboBPulse then res1 ||| btnB else res1

/-- The final `libretro_input_state` handed to the core's `InputGetter`
(libretro.cpp line 1989): mapping, opposing-direction filter, turbo. -/
def libretro_input_state (pA pB pSel pStart pRight pLeft pUp pDown : Bool)
    (up_down_allowed turboAPulse turboBPulse : Bool) : Nat :=
  apply_turbo turboAPulse turboBPulse
    (apply_up_down_filter up_down_allowed
      (buildInputRes pA pB pSel pStart pRight pLeft pUp pDown))

/-- C10: with `up_down_allowed = false`, the input state handed to the
emulation core never has both UP and DOWN set, nor both LEFT and RIGHT:
when both members of an opposing pair are pressed, both bits are
cleared, and the later turbo ORs only touch the A/B bits. -/
theorem no_opposing_directions :
    ∀ pA pB pSel pStart pRight pLeft pUp pDown turboAPulse turboBPulse : Bool,
      ¬((libretro_input_state pA pB pSel pStart pRight pLeft pUp pDown
            false turboAPulse turboBPulse) &&& btnUP ≠ 0 ∧
          (libretro_input_state pA pB pSel pStart pRight pLeft pUp pDown
            false turboAPulse turboBPulse) &&& btnDOWN ≠ 0) ∧
      ¬((libretro_input_state pA pB pSel pStart pRight pLeft pUp pDown
            false turboAPulse turboBPulse) &&& btnLEFT ≠ 0 ∧
          (libretro_input_state pA pB pSel pStart pRight pLeft pUp pDown
            false turboAPulse turboBPulse) &&& btnRIGHT ≠ 0) := by
  decide

/-! ## Interframe mix blending (`blend_frames_mix`, libretro.cpp lines
937-967 portable path, RGB565 build) -/

/-- The packed RGB565 mix of one pixel pair:
`(rgb_curr + rgb_prev + ((rgb_curr ^ rgb_prev) & 0x821)) >> 1`
(libretro.cpp line 956), stored back into a uint16. -/
def mix_pixel (rgb_curr rgb_prev : Nat) : Nat :=
  ((rgb_curr + rgb_prev + ((rgb_curr ^^^ rgb_prev) &&& 0x821)) / 2) % 65536

/-- `blend_frames_mix` (libretro.cpp lines 941-966): the nested loop
walks every visible pixel, first stores the pre-blend current pixel into
the previous-frame buffer, then overwrites the current pixel with
`mix_pixel`.  The visible pixels of `video_buf` and `video_buf_prev_1`
are modelled as equal-length lists; the result is (new current frame,
new previous buffer). -/
def blend_frames_mix (curr prev : List Nat) : List Nat × List Nat :=
  (List.zipWith mix_pixel curr prev, curr)

/-- A freshly (re)allocated previous-frame buffer:
`allocate_video_buf_prev` always `memset`s it to zero (libretro.cpp line
1287), as `init_frame_blending` does when the mix filter is selected
(lines 1336-1340). -/
def zeroFrame (n : Nat) : List Nat := List.replicate n 0

/-- Counterexample for C7 as stated: feeding the one-pixel frame `[2]`
into the mix filter with a freshly zero-initialised previous buffer
yields `[1]`, not `[2]`: the first application averages the frame with
black, so it does not return the frame unchanged. -/
theorem blend_mix_first_application_counterexample :
    (blend_frames_mix [2] (zeroFrame 1)).1 ≠ [2] := by
  decide

/-- C7 amended: the first application blends the frame with the
zero-initialised previous buffer (a rounded-up average with black, which
changes any channel value above 1), while storing the pre-blend frame
into the previous buffer; the second application of the same frame then
returns it exactly unchanged, and keeps the previous buffer equal to the
frame. -/
theorem blend_mix_second_application_id :
    ∀ F : List Nat, (∀ c ∈ F, c < 65536) →
      (blend_frames_mix F (zeroFrame F.length)).2 = F ∧
        (blend_frames_mix F (blend_frames_mix F (zeroFrame F.length)).2).1 = F ∧
        (blend_frames_mix F (blend_frames_mix F (zeroFrame F.length)).2).2 = F := by
  intro F hF
  refine ⟨rfl, ?_, rfl⟩
  show List.zipWith mix_pixel F F = F
  induction F with
  | nil => rfl
  | cons c t ih =>
      have hc : c < 65536 := hF c (by simp)
      have hmix : mix_pixel c c = c := by
        unfold mix_pixel
        rw [Nat.xor_self]
        simp
        omega
      simp only [List.zipWith_cons_cons, hmix]
      rw [ih (fun x hx => hF x (by simp [hx]))]

/-- Witness for the amended C7: a three-pixel frame with channel values
up to the RGB565 maximum passes through the second application
unchanged. -/
theorem blend_mix_second_application_id_witness :
    (∀ c ∈ [0, 31, 65535], c < 65536) ∧
      (blend_frames_mix [0, 31, 65535]
          (blend_frames_mix [0, 31, 65535]
            (zeroFrame (List.length [0, 31, 65535]))).2).1 = [0, 31, 65535] :=
  ⟨by decide,
    (blend_mix_second_application_id [0, 31, 65535] (by decide)).2.1⟩

/-! ## `FakeRtc::bump_time` (fake_rtc.cpp lines 114-140)

`state_.total_minutes` is a `uint32_t`, modelled as a `Nat` below
`2^32`; `bump_minutes` is a C `int`, modelled as an `Int` in
`[-2^31, 2^31)`.  The method also sets `state_.needs_save = true`
whenever the RTC is enabled (line 139); the returned pair is the new
`total_minutes` and the new `needs_save`. -/

/-- `FakeRtc::bump_time`: positive bumps add with 32-bit wraparound;
negative bumps saturate at zero when their magnitude exceeds the current
total. -/
def bump_time (enabled : Bool) (total_minutes : Nat) (bump_minutes : Int) :
    Nat × Bool :=
  if !enabled then (total_minutes, false)
  else if 0 < bump_minutes then
    ((total_minutes + bump_minutes.toNat) % 4294967296, true)
  else if bump_minutes < 0 then
    if total_minutes < (-bump_minutes).toNat then (0, true)
    else (total_minutes - (-bump_minutes).toNat, true)
  else (total_minutes, true)

/-- Counterexample for C9 as stated: at `total_minutes = 2^32 - 1` a
bump of `+1` wraps to `0` modulo `2^32` — a change of `-(2^32 - 1)`,
not `+1` — so "for every other bump value, total_minutes changes by
exactly bump_minutes" fails: only the negative direction saturates. -/
theorem bump_time_wrap_counterexample :
    (bump_time true 4294967295 1).1 = 0 ∧
      ((bump_time true 4294967295 1).1 : Int) - 4294967295 ≠ 1 := by
  constructor
  · rfl
  · decide

/-- C9 amended: with the RTC enabled, a negative bump whose magnitude
exceeds the current total saturates `total_minutes` to exactly `0`; any
other negative or zero bump changes `total_minutes` by exactly
`bump_minutes`; a positive bump adds modulo `2^32`, which is a change of
exactly `bump_minutes` precisely when the 32-bit addition does not
overflow. -/
theorem bump_time_saturates :
    ∀ (total : Nat) (bump : Int), total < 4294967296 →
      -2147483648 ≤ bump → bump < 2147483648 →
      (bump < 0 → (total : Int) < -bump → (bump_time true total bump).1 = 0) ∧
      (bump < 0 → -bump ≤ (total : Int) →
        ((bump_time true total bump).1 : Int) = (total : Int) + bump) ∧
      (bump = 0 → (bump_time true total bump).1 = total) ∧
      (0 < bump → (total : Int) + bump < 4294967296 →
        ((bump_time true total bump).1 : Int) = (total : Int) + bump) := by
  intro total bump h32 hlo hhi
  refine ⟨?_, ?_, ?_, ?_⟩
  · intro hneg hmag
    unfold bump_time
    rw [if_neg (by simp), if_neg (by omega), if_pos hneg, if_pos (by omega)]
  · intro hneg hmag
    unfold bump_time
    rw [if_neg (by simp), if_neg (by omega), if_pos hneg, if_neg (by omega)]
    simp only
    omega
  · intro hz
    subst hz
    rfl
  · intro hpos hnof
    unfold bump_time
    rw [if_neg (by simp), if_pos hpos]
    simp only
    omega

/-- Witness for the amended C9, exercising all four cases: saturation at
zero for a large negative bump, exact subtraction, identity at zero, and
exact addition without overflow. -/
theorem bump_time_saturates_witness :
    ((100 : Nat) < 4294967296 ∧ (-2147483648 : Int) ≤ -101 ∧
        (-101 : Int) < 2147483648) ∧
      (bump_time true 100 (-101)).1 = 0 ∧
      ((bump_time true 100 (-99)).1 : Int) = 100 + (-99) ∧
      (bump_time true 100 0).1 = 100 ∧
      ((bump_time true 100 42).1 : Int) = 100 + 42 :=
  ⟨⟨by decide, by decide, by decide⟩,
    (bump_time_saturates 100 (-101) (by decide) (by decide) (by decide)).1
      (by decide) (by decide),
    (bump_time_saturates 100 (-99) (by decide) (by decide) (by decide)).2.1
      (by decide) (by decide),
    (bump_time_saturates 100 0 (by decide) (by decide) (by decide)).2.2.1 rfl,
    (bump_time_saturates 100 42 (by decide) (by decide) (by decide)).2.2.2
      (by decide) (by decide)⟩

end Gambatte
